import Mathlib

/-!
# FundVal-Live client: shallow embedding and verification

This file embeds the state-management and derived-calculation logic of the
FundVal-Live browser client (React/JS) in Lean 4 and proves properties of it.

JavaScript numbers are modelled as rationals (`ℚ`); nullable values as
`Option`; thrown errors / early returns that skip the network call as
distinguished outcome constructors. Each definition is translated from the
JS source file named in its doc comment.
-/

namespace FundVal

/-! ## Position trade operations (src/unnamed/part_005, usePositions hook) -/

/-- Outcome of the add-lot handler: either a client-side validation failure
(the thrown `Error`), or the network call `addPositionTrade` with its payload. -/
inductive AddOutcome where
  | validationError (msg : String)
  | network (amount : ℚ) (tradeTime : String)
deriving DecidableEq, Repr

/-- Outcome of the reduce-lot handler: either a client-side validation failure
(the thrown `Error`), or the network call `reducePositionTrade` with its payload. -/
inductive ReduceOutcome where
  | validationError (msg : String)
  | network (shares : ℚ) (tradeTime : String)
deriving DecidableEq, Repr

/-- Function `handleAddPosition` from the `usePositions` hook (src/unnamed/part_005,
lines 378-399): `if (!amount || parseFloat(amount) <= 0) throw ...; ...
await addPositionTrade(code, payload, currentAccount)`. The falsy/non-positive
guard is `amount ≤ 0` on the parsed number. -/
def handleAddPosition (amount : ℚ) (tradeTime : String) : AddOutcome :=
  if amount ≤ 0 then .validationError "加仓金额必须大于 0"
  else .network amount tradeTime

/-- Function `handleReducePosition` from the `usePositions` hook (src/unnamed/part_005,
lines 404-431): `if (!shares || parseFloat(shares) <= 0) throw ...;
if (maxShares != null && sh > maxShares) { alert ...; throw ... } ...
await reducePositionTrade(code, payload, currentAccount)`. -/
def handleReducePosition (shares : ℚ) (maxShares : Option ℚ) (tradeTime : String) :
    ReduceOutcome :=
  if shares ≤ 0 then .validationError "减仓份额必须大于 0"
  else
    match maxShares with
    | some m => if m < shares then .validationError "减仓份额超出限制"
                else .network shares tradeTime
    | none => .network shares tradeTime

/-- Function `handleAddSubmit` from the older Account page revision (src/unnamed/part_003,
lines 645-662): `if (!addModalPos || !addAmount || parseFloat(addAmount) <= 0)
return;` — returns `none` when no network call is issued, `some amount` when
`addPositionTrade` is called with that amount. `modalOpen` models `!addModalPos`. -/
def handleAddSubmit (modalOpen : Bool) (addAmount : ℚ) : Option ℚ :=
  if !modalOpen then none
  else if addAmount ≤ 0 then none
  else some addAmount

/-- Function `handleReduceSubmit` from the older Account page revision (src/unnamed/part_003,
lines 664-686): non-positive shares return early, and
`if (reduceModalPos.shares != null && sh > reduceModalPos.shares) { alert ...;
return; }` — returns `none` when no network call is issued, `some sh` when
`reducePositionTrade` is called. `posShares` is `reduceModalPos.shares`. -/
def handleReduceSubmit (modalOpen : Bool) (reduceShares : ℚ) (posShares : Option ℚ) :
    Option ℚ :=
  if !modalOpen then none
  else if reduceShares ≤ 0 then none
  else
    match posShares with
    | some m => if m < reduceShares then none else some reduceShares
    | none => some reduceShares

/-! ## Watchlist (src/frontend/src/App.jsx) -/

/-- A watchlist entry: fund metadata merged with the latest detail snapshot.
Keyed by `id` (the fund code); the remaining object keys are kept as an
association list of opaque string values. -/
structure Fund where
  id : String
  data : List (String × String)
deriving DecidableEq, Repr

/-- The `setWatchlist` updater inside `handleSelectFund`
(src/frontend/src/App.jsx lines 304-310):
`if (prev.find(f => f.id === newFund.id)) return prev; return [...prev, newFund]`. -/
def handleSelectFundUpdate (prev : List Fund) (newFund : Fund) : List Fund :=
  if (prev.find? (fun f => f.id = newFund.id)).isSome then prev
  else prev ++ [newFund]

/-- The `setWatchlist` updater inside `handleCardClick`
(src/frontend/src/App.jsx lines 362-368); textually the same dedup-then-append
as `handleSelectFundUpdate`. -/
def handleCardClickUpdate (prev : List Fund) (newFund : Fund) : List Fund :=
  if (prev.find? (fun f => f.id = newFund.id)).isSome then prev
  else prev ++ [newFund]

/-- The `setWatchlist` updater inside `handleSyncWatchlist`
(src/frontend/src/App.jsx lines 434-447): funds already present (by id) are
filtered out of the batch; if nothing remains the previous list is returned,
otherwise the new funds are appended. -/
def handleSyncWatchlistUpdate (prev : List Fund) (validFunds : List Fund) : List Fund :=
  let newFunds := validFunds.filter (fun f => !(prev.map (·.id)).contains f.id)
  if newFunds.isEmpty then prev
  else prev ++ newFunds

/-- The seen-set dedup filter used in `loadPreferences`
(src/frontend/src/App.jsx lines 83-89 and 101-107):
`parsed.filter(fund => seen.has(fund.id) ? false : (seen.add(fund.id), true))`
— keeps the first occurrence of each id. -/
def dedupByIdAux (seen : List String) : List Fund → List Fund
  | [] => []
  | f :: rest =>
      if seen.contains f.id then dedupByIdAux seen rest
      else f :: dedupByIdAux (f.id :: seen) rest

/-- Function `dedupById` is the JS dedup filter started with an empty seen set. -/
def dedupById (funds : List Fund) : List Fund := dedupByIdAux [] funds

/-- Result of the preference-loading pass: the in-memory watchlist that was
set, and the list of watchlist values pushed to the remote preference store
(`updatePreferences`) by this pass, in order. -/
structure LoadResult where
  watchlist : List Fund
  pushes : List (List Fund)
deriving DecidableEq, Repr

/-- The watchlist branch of `loadPreferences` (src/frontend/src/App.jsx lines
69-108). `remote` is the parse of `prefs.watchlist`; `localSaved` is
the parse of the `fundval_watchlist` local-storage item when it exists
and parses (`none` otherwise). When the remote list is empty and a local list
exists, the local list is deduplicated into the in-memory watchlist and the
saved local value is migrated to the backend with one `updatePreferences`
call; otherwise the remote list is deduplicated and nothing is pushed. -/
def loadPreferences (remote : List Fund) (localSaved : Option (List Fund)) :
    LoadResult :=
  if remote.length = 0 then
    match localSaved with
    | some parsed => { watchlist := dedupById parsed, pushes := [parsed] }
    | none => { watchlist := [], pushes := [] }
  else
    { watchlist := dedupById remote, pushes := [] }

/-! ## Aggregation across accounts -/

/-- A held position as far as the share/cost merge is concerned. -/
structure LotPosition where
  shares : ℚ
  cost : ℚ
deriving DecidableEq, Repr

/-- Modelled from the spec: the aggregation merge itself now lives in the
server behind `GET /positions/aggregate` (the client in
src/unnamed/part_005 lines 81-90 only forwards its response), and the server
code is not part of the provided sources. Per the spec, merging same-code
positions sums shares and computes the shares-weighted average cost
`weighted_cost = Σ(shares_i × cost_i) / Σ(shares_i)`. -/
def mergePositions (ps : List LotPosition) : LotPosition :=
  { shares := (ps.map (·.shares)).sum,
    cost := (ps.map (fun p => p.shares * p.cost)).sum / (ps.map (·.shares)).sum }

/-! ## API request shapes (src/unnamed/part_005, services/api.js) -/

/-- An HTTP request as issued through the axios instance: method, path and
query parameters. -/
structure ApiRequest where
  method : String
  path : String
  params : List (String × String)
deriving DecidableEq, Repr

/-- Function `getAccountPositions(accountId)` (src/unnamed/part_005 lines 81-90):
a GET of `/positions/aggregate` — the `accountId` argument appears nowhere
in the request. -/
def getAccountPositionsRequest (_accountId : Int) : ApiRequest :=
  { method := "GET", path := "/positions/aggregate", params := [] }

/-! ## Position display: sorting and the aggregated view
(src/unnamed/part_005 usePositions hook, src/frontend/src/pages/Account.jsx) -/

/-- The `direction` field of a sort option: the string `desc` or `asc`. -/
inductive SortDirection where
  | desc
  | asc
deriving DecidableEq, Repr

/-- One entry of `SORT_OPTIONS`: `{ label, key, direction }`. -/
structure SortOption where
  label : String
  key : String
  direction : SortDirection
deriving DecidableEq, Repr

/-- A position row as the display layer sees it: fund code, category, and the
numeric fields addressed by sort keys, kept as an association list (a key
absent from the list models an object property that is `undefined`). -/
structure Position where
  code : String
  category : String
  fields : List (String × ℚ)
deriving DecidableEq, Repr

/-- The `SORT_OPTIONS` table of the `usePositions` hook
(src/unnamed/part_005 lines 259-270). -/
def SORT_OPTIONS : List SortOption :=
  [ ⟨"实际总值（从高到低）", "nav_market_value", .desc⟩,
    ⟨"实际总值（从低到高）", "nav_market_value", .asc⟩,
    ⟨"持有收益（从高到低）", "accumulated_income", .desc⟩,
    ⟨"持有收益（从低到高）", "accumulated_income", .asc⟩,
    ⟨"持有收益率（从高到低）", "accumulated_return_rate", .desc⟩,
    ⟨"持有收益率（从低到高）", "accumulated_return_rate", .asc⟩,
    ⟨"当日预估（从高到低）", "day_income", .desc⟩,
    ⟨"当日预估（从低到高）", "day_income", .asc⟩,
    ⟨"当日预估收益率（从高到低）", "est_rate", .desc⟩,
    ⟨"当日预估收益率（从低到高）", "est_rate", .asc⟩ ]

/-- The key read `a[sortOption.key] || 0` (src/unnamed/part_005 lines 480-481): a missing
key reads as `undefined` and a falsy numeric value is `0`, so both collapse
to `0`; a present non-zero rational is returned as-is. -/
def sortKeyValue (p : Position) (key : String) : ℚ :=
  (p.fields.lookup key).getD 0

/-- The comparator body of `sortPositions` (src/unnamed/part_005 line 482):
descending direction compares `bValue - aValue`, ascending `aValue - bValue`. -/
def positionCompare (opt : SortOption) (a b : Position) : ℚ :=
  match opt.direction with
  | .desc => sortKeyValue b opt.key - sortKeyValue a opt.key
  | .asc => sortKeyValue a opt.key - sortKeyValue b opt.key

/-- Function `sortPositions` (src/unnamed/part_005 lines 478-484):
`[...positions].sort(cmp)` — the spread copies the array, so the input is not
mutated; the copy is sorted by the numeric comparator. The JS engine sort is
modelled as a merge sort ordered by `cmp(a, b) ≤ 0`. -/
def sortPositionsFun (opt : SortOption) (positions : List Position) : List Position :=
  positions.mergeSort (fun a b => decide (positionCompare opt a b ≤ 0))

/-- Flag `isAggregatedView` (src/frontend/src/pages/Account.jsx line 41):
`currentAccount === 0`. -/
def isAggregatedView (currentAccount : Int) : Bool := currentAccount = 0

/-- The add-a-record button (`记一笔`) is rendered only under
`!isAggregatedView` (src/frontend/src/pages/Account.jsx lines 342-345). -/
def showAddEntryButton (currentAccount : Int) : Bool := !isAggregatedView currentAccount

/-- The per-row edit/delete actions are rendered only under
`!isAggregatedView`; the aggregated view shows the read-only `仅查看` tag
instead (src/frontend/src/pages/Account.jsx lines 232-260). -/
def showRowMutations (currentAccount : Int) : Bool := !isAggregatedView currentAccount

/-- The displayed table rows (src/frontend/src/pages/Account.jsx lines 42-45):
`sortedPositions = sortPositions(displayPositions)` where `displayPositions`
is the `positions` array of the fetcher — the same pipeline for every account,
with no merge step. -/
def displayedPositions (opt : SortOption) (serverPositions : List Position) :
    List Position :=
  sortPositionsFun opt serverPositions

/-! ## Polling refresh tick (src/frontend/src/App.jsx lines 235-257) -/

/-- The JS spread `{ ...fund, ...detail }`: keys of the detail snapshot
override those of the cached entry. -/
def spreadMerge (fund detail : Fund) : Fund :=
  { id := detail.id,
    data := fund.data.filter (fun kv => (detail.data.lookup kv.1).isNone)
              ++ detail.data }

/-- One polling tick over the watchlist (src/frontend/src/App.jsx lines
238-253): `Promise.all` maps each entry to the spread-merge of the entry with
its fetched detail, falling back to the entry itself when `getFundDetail`
rejects, then one `setWatchlist(updatedList)` replaces the list.
`detailResult id` is the settled outcome of `getFundDetail(id)` during this
tick (`none` = rejected); the returned list is the value the watchlist is
replaced with after all requests settle. -/
def pollTick (detailResult : String → Option Fund) (watchlist : List Fund) :
    List Fund :=
  watchlist.map (fun fund =>
    match detailResult fund.id with
    | some detail => spreadMerge fund detail
    | none => fund)

/-! ## Account data fetcher retry (src/unnamed/part_003 lines 498-518,
src/unnamed/part_002 lines 17-37) -/

/-- Function `fetchData(retryCount)` from the Account page: on transport failure,
`if (retryCount < 2) setTimeout(() => fetchData(retryCount + 1),
Math.pow(2, retryCount) * 1000); else setError(...)`. `fails n` tells whether
the attempt made by the invocation with `retryCount = n` fails. Returns the
list of backoff delays (ms) scheduled before each retry, and whether the run
ended in success (`true`) or in the terminal error state (`false`). -/
def fetchData (fails : Nat → Bool) (retryCount : Nat) : List Nat × Bool :=
  if fails retryCount then
    if retryCount < 2 then
      let rest := fetchData fails (retryCount + 1)
      (2 ^ retryCount * 1000 :: rest.1, rest.2)
    else ([], false)
  else ([], true)
termination_by 3 - retryCount
decreasing_by omega

end FundVal

namespace FundVal

/-! ## Theorems: trade-operation validation -/

/-- C2: for every non-positive amount passed to the add-lot handlers and every
non-positive shares passed to the reduce-lot handlers (in both revisions of the
code), the operation fails validation and no network call
(`addPositionTrade` / `reducePositionTrade`) is issued. -/
theorem add_reduce_nonpositive_no_network
    (amount shares : ℚ) (t : String) (maxShares posShares : Option ℚ)
    (ha : amount ≤ 0) (hs : shares ≤ 0) :
    (∃ msg, handleAddPosition amount t = .validationError msg) ∧
    (∃ msg, handleReducePosition shares maxShares t = .validationError msg) ∧
    handleAddSubmit true amount = none ∧
    handleReduceSubmit true shares posShares = none := by
  refine ⟨⟨"加仓金额必须大于 0", ?_⟩, ⟨"减仓份额必须大于 0", ?_⟩, ?_, ?_⟩ <;>
    simp [handleAddPosition, handleReducePosition, handleAddSubmit,
      handleReduceSubmit, ha, hs]

/-- Witness for `add_reduce_nonpositive_no_network` at `amount = -1`,
`shares = 0`. -/
theorem add_reduce_nonpositive_no_network_witness :
    (∃ msg, handleAddPosition (-1) "2024-01-01T14:59:00" = .validationError msg) ∧
    (∃ msg, handleReducePosition 0 (some 10) "2024-01-01T14:59:00" = .validationError msg) ∧
    handleAddSubmit true (-1) = none ∧
    handleReduceSubmit true 0 (some 10) = none :=
  add_reduce_nonpositive_no_network (-1) 0 "2024-01-01T14:59:00" (some 10) (some 10)
    (by norm_num) (by norm_num)

/-- C1: for every positive shares strictly greater than the known current
holding, the reduce handlers (both revisions) fail validation before any
network request; for positive shares within the holding the
`reducePositionTrade` request is sent with that share count. -/
theorem reduceLot_validation
    (shares m : ℚ) (t : String) (hpos : 0 < shares) :
    (m < shares →
      (∃ msg, handleReducePosition shares (some m) t = .validationError msg) ∧
      handleReduceSubmit true shares (some m) = none) ∧
    (shares ≤ m →
      handleReducePosition shares (some m) t = .network shares t ∧
      handleReduceSubmit true shares (some m) = some shares) := by
  constructor
  · intro hover
    refine ⟨⟨"减仓份额超出限制", ?_⟩, ?_⟩ <;>
      simp [handleReducePosition, handleReduceSubmit, not_le.mpr hpos, hover]
  · intro hle
    constructor <;>
      simp [handleReducePosition, handleReduceSubmit, not_le.mpr hpos, not_lt.mpr hle]

/-- Witness for `reduceLot_validation`: holding `100`, over-reduction at
`shares = 150` is blocked, in-range reduction at `shares = 50` is sent. -/
theorem reduceLot_validation_witness :
    ((100 : ℚ) < 150 →
      (∃ msg, handleReducePosition 150 (some 100) "t" = .validationError msg) ∧
      handleReduceSubmit true 150 (some 100) = none) ∧
    ((150 : ℚ) ≤ 100 →
      handleReducePosition 150 (some 100) "t" = .network 150 "t" ∧
      handleReduceSubmit true 150 (some 100) = some 150) :=
  reduceLot_validation 150 100 "t" (by norm_num)

/-! ## Theorems: watchlist deduplication and preference migration -/

/-- Case split for `handleSelectFundUpdate`: id found, list unchanged. -/
theorem selectUpdate_of_found (prev : List Fund) (f : Fund)
    (h : (prev.find? (fun x => x.id = f.id)).isSome = true) :
    handleSelectFundUpdate prev f = prev := by
  unfold handleSelectFundUpdate
  simp only [h, if_true]

/-- Case split for `handleSelectFundUpdate`: id absent, fund appended. -/
theorem selectUpdate_of_not_found (prev : List Fund) (f : Fund)
    (h : prev.find? (fun x => x.id = f.id) = none) :
    handleSelectFundUpdate prev f = prev ++ [f] := by
  unfold handleSelectFundUpdate
  simp only [h, Option.isSome_none, Bool.false_eq_true, if_false]

/-- Case split for `handleSyncWatchlistUpdate`: nothing new, list unchanged. -/
theorem syncUpdate_of_isEmpty (prev b : List Fund)
    (h : (b.filter (fun f => !(prev.map (·.id)).contains f.id)).isEmpty = true) :
    handleSyncWatchlistUpdate prev b = prev := by
  unfold handleSyncWatchlistUpdate
  simp only [h, if_true]

/-- Case split for `handleSyncWatchlistUpdate`: new funds appended. -/
theorem syncUpdate_of_not_isEmpty (prev b : List Fund)
    (h : ¬ (b.filter (fun f => !(prev.map (·.id)).contains f.id)).isEmpty = true) :
    handleSyncWatchlistUpdate prev b
      = prev ++ b.filter (fun f => !(prev.map (·.id)).contains f.id) := by
  have h2 : (b.filter (fun f => !(prev.map (·.id)).contains f.id)).isEmpty = false := by
    revert h
    cases (b.filter (fun f => !(prev.map (·.id)).contains f.id)).isEmpty <;> simp
  unfold handleSyncWatchlistUpdate
  simp only [h2, Bool.false_eq_true, if_false]

/-- C5: inserting a fund whose id is already present in the watchlist — via
search-select, card-click, or sync-from-positions — returns the watchlist
unchanged (so its length stays the same), and each insert path preserves the
no-two-entries-with-the-same-id invariant. -/
theorem watchlist_dedup_insert (prev : List Fund) (f : Fund) (batch : List Fund)
    (hf : f.id ∈ prev.map (·.id)) (hb : ∀ g ∈ batch, g.id ∈ prev.map (·.id)) :
    handleSelectFundUpdate prev f = prev ∧
    handleCardClickUpdate prev f = prev ∧
    handleSyncWatchlistUpdate prev batch = prev ∧
    (handleSelectFundUpdate prev f).length = prev.length ∧
    (∀ f2, (prev.map (·.id)).Nodup →
      ((handleSelectFundUpdate prev f2).map (·.id)).Nodup) ∧
    (∀ batch2, (prev.map (·.id)).Nodup → (batch2.map (·.id)).Nodup →
      ((handleSyncWatchlistUpdate prev batch2).map (·.id)).Nodup) := by
  obtain ⟨g, hg, hgid⟩ := by simpa using hf
  have hfind : (prev.find? (fun x => x.id = f.id)).isSome = true := by
    rw [List.find?_isSome]
    exact ⟨g, hg, by simp [hgid]⟩
  have hsel : handleSelectFundUpdate prev f = prev := selectUpdate_of_found prev f hfind
  have hsync0 : handleSyncWatchlistUpdate prev batch = prev := by
    apply syncUpdate_of_isEmpty
    have hnil : batch.filter (fun x => !(prev.map (·.id)).contains x.id) = [] := by
      apply List.filter_eq_nil_iff.mpr
      intro a ha
      have hmem : a.id ∈ prev.map (·.id) := hb a ha
      simp [hmem]
    rw [hnil]
    rfl
  refine ⟨hsel, selectUpdate_of_found prev f hfind, hsync0, by rw [hsel], ?_, ?_⟩
  · intro f2 hnd
    cases hfound : prev.find? (fun x => x.id = f2.id) with
    | some g2 =>
        rw [selectUpdate_of_found prev f2 (by rw [hfound]; rfl)]
        exact hnd
    | none =>
        have hnotin : f2.id ∉ prev.map (·.id) := by
          intro hmem
          obtain ⟨g2, hg2, hg2id⟩ := by simpa using hmem
          have := List.find?_eq_none.mp hfound g2 hg2
          simp [hg2id] at this
        rw [selectUpdate_of_not_found prev f2 hfound]
        simp only [List.map_append, List.map_cons, List.map_nil]
        refine List.Nodup.append hnd (List.nodup_singleton _) ?_
        intro x hx hx2
        simp only [List.mem_singleton] at hx2
        exact hnotin (hx2 ▸ hx)
  · intro batch2 hnd hnd2
    by_cases hemp : (batch2.filter (fun x => !(prev.map (·.id)).contains x.id)).isEmpty = true
    · rw [syncUpdate_of_isEmpty prev batch2 hemp]
      exact hnd
    · rw [syncUpdate_of_not_isEmpty prev batch2 hemp, List.map_append]
      refine List.Nodup.append hnd
        (hnd2.sublist ((List.filter_sublist batch2).map (·.id))) ?_
      intro x hx hx2
      obtain ⟨g2, hg2, hg2id⟩ := by simpa using hx2
      obtain ⟨p, hp, hpid⟩ := by simpa using hx
      exact hg2.2 p hp (hpid.trans hg2id.symm)

/-- Witness for `watchlist_dedup_insert`: a two-entry watchlist, re-inserting
the first entry and syncing a batch consisting of the second entry. -/
theorem watchlist_dedup_insert_witness :
    handleSelectFundUpdate [⟨"005827", []⟩, ⟨"000001", []⟩] ⟨"005827", [("name", "x")]⟩
      = [⟨"005827", []⟩, ⟨"000001", []⟩] ∧
    handleCardClickUpdate [⟨"005827", []⟩, ⟨"000001", []⟩] ⟨"005827", [("name", "x")]⟩
      = [⟨"005827", []⟩, ⟨"000001", []⟩] ∧
    handleSyncWatchlistUpdate [⟨"005827", []⟩, ⟨"000001", []⟩] [⟨"000001", []⟩]
      = [⟨"005827", []⟩, ⟨"000001", []⟩] ∧
    (handleSelectFundUpdate [⟨"005827", []⟩, ⟨"000001", []⟩] ⟨"005827", [("name", "x")]⟩).length
      = ([⟨"005827", []⟩, ⟨"000001", []⟩] : List Fund).length ∧
    (∀ f2, (([⟨"005827", []⟩, ⟨"000001", []⟩] : List Fund).map (·.id)).Nodup →
      ((handleSelectFundUpdate [⟨"005827", []⟩, ⟨"000001", []⟩] f2).map (·.id)).Nodup) ∧
    (∀ batch2, (([⟨"005827", []⟩, ⟨"000001", []⟩] : List Fund).map (·.id)).Nodup →
      (batch2.map (·.id)).Nodup →
      ((handleSyncWatchlistUpdate [⟨"005827", []⟩, ⟨"000001", []⟩] batch2).map (·.id)).Nodup) :=
  watchlist_dedup_insert [⟨"005827", []⟩, ⟨"000001", []⟩] ⟨"005827", [("name", "x")]⟩
    [⟨"000001", []⟩] (by decide) (by decide)

/-- C6: if the remote preferences watchlist parses to an empty list and a
locally cached watchlist exists, `loadPreferences` adopts the local value
(deduplicated) as the in-memory watchlist and pushes it to the remote
preference store exactly once. -/
theorem preference_migration (remote : List Fund) (localParsed : List Fund)
    (hremote : remote = []) :
    (loadPreferences remote (some localParsed)).watchlist = dedupById localParsed ∧
    (loadPreferences remote (some localParsed)).pushes = [localParsed] ∧
    (loadPreferences remote (some localParsed)).pushes.length = 1 := by
  subst hremote
  simp [loadPreferences]

/-- Witness for `preference_migration`: empty remote, a duplicated local list. -/
theorem preference_migration_witness :
    (loadPreferences [] (some [⟨"005827", []⟩, ⟨"005827", []⟩])).watchlist
      = dedupById [⟨"005827", []⟩, ⟨"005827", []⟩] ∧
    (loadPreferences [] (some [⟨"005827", []⟩, ⟨"005827", []⟩])).pushes
      = [[⟨"005827", []⟩, ⟨"005827", []⟩]] ∧
    (loadPreferences [] (some [⟨"005827", []⟩, ⟨"005827", []⟩])).pushes.length = 1 :=
  preference_migration [] [⟨"005827", []⟩, ⟨"005827", []⟩] rfl

/-! ## Theorems: aggregation -/

/-- C4: merging same-code positions sums shares and computes the
shares-weighted average cost `Σ(shares_i × cost_i) / Σ(shares_i)`; in
particular `(shares = 100, cost = 1)` and `(shares = 50, cost = 2)` merge to
150 shares at cost `4/3`. -/
theorem aggregated_weighted_cost :
    (∀ ps : List LotPosition,
      (mergePositions ps).shares = (ps.map (·.shares)).sum ∧
      (mergePositions ps).cost
        = (ps.map (fun p => p.shares * p.cost)).sum / (ps.map (·.shares)).sum) ∧
    mergePositions [⟨100, 1⟩, ⟨50, 2⟩] = ⟨150, 4 / 3⟩ := by
  refine ⟨fun ps => ⟨rfl, rfl⟩, ?_⟩
  simp only [mergePositions, List.map_cons, List.map_nil, List.sum_cons,
    List.sum_nil, LotPosition.mk.injEq]
  norm_num

/-! ## Theorems: the client request for positions -/

/-- C9: `getAccountPositions` ignores its `accountId` argument entirely — any
two account ids (including the aggregate id 0) produce the same request to
`/positions/aggregate`, hence identical data from any server. -/
theorem getAccountPositions_ignores_accountId (a b : Int) :
    getAccountPositionsRequest a = getAccountPositionsRequest b ∧
    getAccountPositionsRequest a
      = { method := "GET", path := "/positions/aggregate", params := [] } ∧
    ∀ (Response : Type) (server : ApiRequest → Response),
      server (getAccountPositionsRequest a) = server (getAccountPositionsRequest b) :=
  ⟨rfl, rfl, fun _ _ => rfl⟩

/-! ## Theorems: fetcher retry -/

/-- C3: on 3 consecutive transport failures, `fetchData` performs exactly 2
retries after the initial attempt, with backoff delays 1000 ms then 2000 ms
(`2 ^ retryCount * 1000`), and after the second retry fails it reports the
terminal error state (`false`) instead of retrying again. -/
theorem fetchData_three_failures
    (fails : Nat → Bool)
    (h0 : fails 0 = true) (h1 : fails 1 = true) (h2 : fails 2 = true) :
    fetchData fails 0 = ([1000, 2000], false) := by
  rw [fetchData, fetchData, fetchData]
  simp [h0, h1, h2]

/-- Witness for `fetchData_three_failures`: every attempt fails. -/
theorem fetchData_three_failures_witness :
    fetchData (fun _ => true) 0 = ([1000, 2000], false) :=
  fetchData_three_failures (fun _ => true) rfl rfl rfl

/-! ## Theorems: sorting and the aggregated view -/

/-- The comparator order `positionCompare opt a b ≤ 0` is transitive. -/
theorem positionCompare_trans (opt : SortOption) (a b c : Position)
    (hab : positionCompare opt a b ≤ 0) (hbc : positionCompare opt b c ≤ 0) :
    positionCompare opt a c ≤ 0 := by
  cases h : opt.direction <;>
    simp only [positionCompare, h, sub_nonpos] at hab hbc ⊢ <;>
    (first
      | exact le_trans hbc hab
      | exact le_trans hab hbc)

/-- The comparator order `positionCompare opt a b ≤ 0` is total. -/
theorem positionCompare_total (opt : SortOption) (a b : Position) :
    positionCompare opt a b ≤ 0 ∨ positionCompare opt b a ≤ 0 := by
  cases h : opt.direction <;>
    simp only [positionCompare, h, sub_nonpos] <;>
    exact le_total _ _

/-- C10: for every sort option and every position list, `sortPositions`
returns a permutation of the input (same elements, same length) — the source
copies the array with a spread before sorting, so the model takes the input
by value and leaves it untouched — ordered by the key of the option in the
direction of the option, with a missing key value read as 0. -/
theorem sortPositions_perm (opt : SortOption) (positions : List Position) :
    (sortPositionsFun opt positions).Perm positions ∧
    (sortPositionsFun opt positions).length = positions.length ∧
    (∀ p, p ∈ sortPositionsFun opt positions ↔ p ∈ positions) ∧
    (sortPositionsFun opt positions).Pairwise
      (fun a b => positionCompare opt a b ≤ 0) ∧
    (∀ p, p.fields.lookup opt.key = none → sortKeyValue p opt.key = 0) := by
  have hperm := List.mergeSort_perm positions
    (fun a b => decide (positionCompare opt a b ≤ 0))
  refine ⟨hperm, hperm.length_eq, fun p => hperm.mem_iff, ?_, ?_⟩
  · have hsorted := @List.sorted_mergeSort Position
      (fun a b => decide (positionCompare opt a b ≤ 0))
      (fun a b c hab hbc => by
        simp only [decide_eq_true_eq] at hab hbc ⊢
        exact positionCompare_trans opt a b c hab hbc)
      (fun a b => by
        simp only [Bool.or_eq_true, decide_eq_true_eq]
        exact positionCompare_total opt a b)
      positions
    exact hsorted.imp (by simp)
  · intro p h
    simp [sortKeyValue, h]

/-- C7: when the selected account is the reserved aggregate id 0 the client
performs no merge logic — the rows rendered are exactly the server
response reordered for display (a permutation, each row an unchanged element
of the response), and the add-record and per-row edit/delete affordances are
not offered in that view. -/
theorem aggregated_view_no_merge (opt : SortOption) (serverPositions : List Position) :
    isAggregatedView 0 = true ∧
    (displayedPositions opt serverPositions).Perm serverPositions ∧
    (∀ p, p ∈ displayedPositions opt serverPositions ↔ p ∈ serverPositions) ∧
    showAddEntryButton 0 = false ∧
    showRowMutations 0 = false := by
  have hperm := List.mergeSort_perm serverPositions
    (fun a b => decide (positionCompare opt a b ≤ 0))
  exact ⟨rfl, hperm, fun p => hperm.mem_iff, rfl, rfl⟩

/-! ## Theorems: polling error isolation -/

/-- C8: on a polling tick, a failed detail fetch for one entry leaves that
prior cached value of that entry unchanged in the replacement list, and the
updated value of each entry depends only on its own fetch outcome, so the failure of one entry
cannot affect any other entry; the replacement list is a single value produced
from all settled outcomes (`Promise.all`), of the same length as the input. -/
theorem polling_error_isolation (detailResult : String → Option Fund)
    (w : List Fund) (i : Nat) (fund : Fund) (hw : w[i]? = some fund) :
    (pollTick detailResult w).length = w.length ∧
    (detailResult fund.id = none → (pollTick detailResult w)[i]? = some fund) ∧
    (∀ detailResult2 : String → Option Fund,
      detailResult2 fund.id = detailResult fund.id →
      (pollTick detailResult2 w)[i]? = (pollTick detailResult w)[i]?) := by
  refine ⟨by simp [pollTick], ?_, ?_⟩
  · intro hnone
    simp [pollTick, List.getElem?_map, hw, hnone]
  · intro d2 hagree
    simp [pollTick, List.getElem?_map, hw, hagree]

/-- Witness for `polling_error_isolation`: a one-entry watchlist whose fetch
fails. -/
theorem polling_error_isolation_witness :
    (pollTick (fun _ => none) [⟨"005827", []⟩]).length = 1 ∧
    ((none : Option Fund) = none →
      (pollTick (fun _ => none) [⟨"005827", []⟩])[0]? = some ⟨"005827", []⟩) ∧
    (∀ detailResult2 : String → Option Fund,
      detailResult2 "005827" = none →
      (pollTick detailResult2 [⟨"005827", []⟩])[0]?
        = (pollTick (fun _ => none) [⟨"005827", []⟩])[0]?) :=
  polling_error_isolation (fun _ => none) [⟨"005827", []⟩] 0 ⟨"005827", []⟩ rfl

end FundVal
